import Mathlib

/-!
Verification of `panphon/segment.py`: a phonological segment modelled as a
vector of ternary features over an ordered schema of feature names.

Python values are embedded as follows: feature values are `Int`; a Python
`dict` keyed by strings is an association list with dict semantics
(assignment replaces the value of an existing key in place, otherwise
appends; lookup takes the first entry); operations that can raise return
`Option` or `Except`.
-/

/-- Feature values (Python ints). -/
abbrev Val := Int

/-- Model of a Python `dict` from feature names to values. -/
abbrev PyDict := List (String × Val)

/-- `d[k]` as a total lookup: `some` the stored value, `none` for a KeyError. -/
def PyDict.get? (d : PyDict) (k : String) : Option Val :=
  (d.find? (fun p => p.1 == k)).map (fun p => p.2)

/-- `k in d` for a Python dict. -/
def PyDict.hasKey (d : PyDict) (k : String) : Bool :=
  d.any (fun p => p.1 == k)

/-- `d[k] = v`: when the key exists its value is replaced in place (the
entry keeps its position), otherwise the new pair is appended — Python dict
insertion-order semantics. -/
def PyDict.insert : PyDict → String → Val → PyDict
  | [], k, v => [(k, v)]
  | p :: d, k, v => if p.1 = k then (k, v) :: d else p :: PyDict.insert d k v

/-- `d.update(m)`: set every key/value pair of `m` in `d`, in order. -/
def PyDict.updateAll (d : PyDict) (m : PyDict) : PyDict :=
  m.foldl (fun acc p => PyDict.insert acc p.1 p.2) d

/-- The keys of a dict, in insertion order. -/
def PyDict.keys (d : PyDict) : List String :=
  d.map (fun p => p.1)

/-- The `Segment` object state: the schema `names` and the feature store
`data` (the per-instance tables `n2s`/`s2n` are the fixed maps below). -/
structure Segment where
  names : List String
  data : PyDict
deriving DecidableEq

/-- `self.n2s`, the table `-1` to `-`, `0` to `0`, `1` to `+`; `none` models
the KeyError a lookup of any other value raises. -/
def n2s (v : Val) : Option Char :=
  if v = -1 then some '-' else if v = 0 then some '0'
  else if v = 1 then some '+' else none

/-- `self.s2n`, the inverse table; `none` models a KeyError. -/
def s2n (c : Char) : Option Val :=
  if c = '-' then some (-1) else if c = '0' then some 0
  else if c = '+' then some 1 else none

/-- The literal pattern passed to `re.finditer` in `Segment.__init__`. -/
def ftstrPattern : String := "(+|0|-)(\\w+)"

/-- Embeds the pattern-compilation check of the `regex` package (and of the
stdlib `re`) that is relevant here: a quantifier `+`, `*` or `?` found where
no repeatable element precedes it (at the start of the pattern or of a
group, or right after `|`) aborts compilation with the error
`nothing to repeat` at that position (regex `_regex_core.apply_quantifier`
raises when the current sequence holds no element; CPython `re` reports the
identical message and position).  An escape counts as one element, `)`
closes a group which is itself an element.  The `skip` flag marks that the
previous character was a backslash.  Returns the position of the first such
dangling quantifier, `none` when there is none. -/
def nothingToRepeat : List Char → Nat → Bool → Bool → Option Nat
  | [], _, _, _ => none
  | _ :: cs, i, _, true => nothingToRepeat cs (i + 1) true false
  | c :: cs, i, elem, false =>
    if c = '(' || c = '|' then nothingToRepeat cs (i + 1) false false
    else if c = '\\' then nothingToRepeat cs (i + 1) elem true
    else if c = '+' || c = '*' || c = '?' then
      (if elem then nothingToRepeat cs (i + 1) false false else some i)
    else nothingToRepeat cs (i + 1) true false

/-- A word character for `\w` (letter, digit or underscore). -/
def isWordChar (c : Char) : Bool := c.isAlphanum || c = '_'

/-- One of the three feature symbols of the pattern alternation. -/
def isFtSym (c : Char) : Bool := c = '+' || c = '0' || c = '-'

/-- Left-to-right non-overlapping scan for the matches the ftstr pattern was
meant to produce: a symbol from `+0-` followed by a maximal nonempty run of
word characters (the greedy match of one-or-more word characters).  The
state carries the pending symbol and the reversed word run. -/
def scanFtAux : List Char → Option (Char × List Char) → List (Char × String)
  | [], none => []
  | [], some (sy, w) => if w.isEmpty then [] else [(sy, String.mk w.reverse)]
  | c :: cs, none =>
    if isFtSym c then scanFtAux cs (some (c, [])) else scanFtAux cs none
  | c :: cs, some (sy, w) =>
    if isWordChar c then scanFtAux cs (some (sy, c :: w))
    else if w.isEmpty then
      (if isFtSym c then scanFtAux cs (some (c, [])) else scanFtAux cs none)
    else
      (sy, String.mk w.reverse) ::
        (if isFtSym c then scanFtAux cs (some (c, [])) else scanFtAux cs none)

/-- The match list of the intended ftstr scan. -/
def scanFt (s : String) : List (Char × String) := scanFtAux s.toList none

/-- Lines 23 to 28 of `__init__`: `data[name] = features[name]` when
`name in features`, else `0`, in schema order. -/
def fillDefaults (names : List String) (features : PyDict) : PyDict :=
  names.foldl
    (fun d name =>
      match features.get? name with
      | some v => PyDict.insert d name v
      | none => PyDict.insert d name 0)
    []

/-- The loop body over the ftstr matches: `data[k] = s2n[v]` for each match
`(v, k)`; a symbol outside the table would raise a KeyError (`none`). -/
def applyFtMatches : PyDict → List (Char × String) → Option PyDict
  | d, [] => some d
  | d, (c, w) :: ms =>
    match s2n c with
    | some v => applyFtMatches (PyDict.insert d w v) ms
    | none => none

/-- `Segment.__init__(names, features, ftstr)`.  The call
`re.finditer` with `ftstrPattern` first compiles the pattern; compilation
fails with `nothing to repeat` (the `+` at position 1 sits at the start of a
group), so the constructor raises for every input.  Had the pattern
compiled, the matches of the scan would be applied over the default fill. -/
def Segment.init (names : List String) (features : PyDict) (ftstr : String) :
    Except String Segment :=
  match nothingToRepeat ftstrPattern.toList 0 false false with
  | some i => Except.error ("nothing to repeat at position " ++ toString i)
  | none =>
    match applyFtMatches (fillDefaults names features) (scanFt ftstr) with
    | some d => Except.ok { names := names, data := d }
    | none => Except.error "KeyError"

/-- `__getitem__`: plain `self.data[key]`, KeyError as `none`. -/
def Segment.getitem (s : Segment) (k : String) : Option Val :=
  s.data.get? k

/-- `__setitem__`: store only when `key in self.names`, else raise
`KeyError` with message `Unknown feature name.`; the pair is the outcome
together with the post-state of the object. -/
def Segment.setitem (s : Segment) (k : String) (v : Val) :
    Except String Unit × Segment :=
  if k ∈ s.names then (Except.ok (), { s with data := s.data.insert k v })
  else (Except.error "Unknown feature name.", s)

/-- `__iter__`: iteration yields the feature names. -/
def Segment.iter (s : Segment) : List String := s.names

/-- `[self.data[k] for k in ks]`: the comprehension raises (is `none`) as
soon as one key is missing. -/
def lookupAll (d : PyDict) : List String → Option (List Val)
  | [] => some []
  | k :: ks =>
    match d.get? k, lookupAll d ks with
    | some v, some vs => some (v :: vs)
    | _, _ => none

/-- `numeric()`: the values for each name in `names`, in schema order. -/
def Segment.numeric? (s : Segment) : Option (List Val) :=
  lookupAll s.data s.names

/-- `items()`: the `(name, value)` pairs in schema order. -/
def Segment.items (s : Segment) : Option (List (String × Val)) :=
  (lookupAll s.data s.names).map (fun vs => s.names.zip vs)

/-- `string()`: `map(lambda x: self.n2s[x], self.numeric())` — the outer
`Option` is the possible failure of `numeric()`, each element the (lazily
failing) table lookup. -/
def Segment.string (s : Segment) : Option (List (Option Char)) :=
  (s.numeric?).map (fun x => x.map n2s)

/-- The list `[n2s[data[k]] ++ k for k in names]` built by `__repr__`;
`none` on any missing key or untranslatable value. -/
def reprPairs : PyDict → List String → Option (List String)
  | _, [] => some []
  | d, k :: ks =>
    match d.get? k with
    | some v =>
      match n2s v with
      | some c => (reprPairs d ks).map (fun rest => (String.mk [c] ++ k) :: rest)
      | none => none
    | none => none

/-- `__repr__`: the pairs joined by a comma and wrapped in brackets. -/
def Segment.reprStr (s : Segment) : Option String :=
  (reprPairs s.data s.names).map
    (fun ps => "[" ++ String.intercalate ", " ps ++ "]")

/-- `update(segment)`: `self.data.update(segment)`, merged verbatim. -/
def Segment.update (s : Segment) (m : PyDict) : Segment :=
  { s with data := s.data.updateAll m }

/-- The message of the NameError that `match` raises. -/
def nameErrorFeatures : String := "NameError: name features is not defined"

/-- `match(other)`: the body evaluates `features.items()`, but no binding
named `features` is in scope anywhere in the module (the parameter is named
`other`), so every call raises a NameError before comparing anything. -/
def Segment.matchOp (_s : Segment) (_other : PyDict) : Except String Bool :=
  Except.error nameErrorFeatures

/-- `__ge__`: delegates to `match`. -/
def Segment.ge (s : Segment) (other : PyDict) : Except String Bool :=
  s.matchOp other

/-- `intersection(other)`: `dict(set(self.data.items()) & set(other.data.items()))`.
A pair `(k, v)` lies in the item-set intersection exactly when both dicts
store `v` at `k`; since each key carries one value per dict, the resulting
dict is, as a key-to-value map, the function below (the unspecified set
iteration order only permutes insertion order, not content). -/
def Segment.intersection (a b : Segment) : String → Option Val :=
  fun k =>
    match a.data.get? k with
    | some v => if b.data.get? k = some v then some v else none
    | none => none

/-- `__and__`: delegates to `intersection`. -/
def Segment.andOp (a b : Segment) : String → Option Val :=
  a.intersection b

/-- `sum(abs(a - b) for (a, b) in zip(x, y))`. -/
def sumAbsDiff (x y : List Val) : Val :=
  ((x.zip y).map (fun p => |p.1 - p.2|)).sum

/-- `sum(int(a != b) for (a, b) in zip(x, y))`. -/
def hammingSum (x y : List Val) : Val :=
  ((x.zip y).map (fun p => if p.1 ≠ p.2 then (1 : Val) else 0)).sum

/-- `distance(other)`: both `numeric()` calls must succeed, then the L1 sum
over the zip. -/
def Segment.distance (a b : Segment) : Option Val :=
  match a.numeric?, b.numeric? with
  | some x, some y => some (sumAbsDiff x y)
  | _, _ => none

/-- `norm_distance(other)`: `self.distance(other) / len(self.names)` with
true division (exact on integers, modelled in `ℚ`); a ZeroDivisionError on
an empty schema is `none`. -/
def Segment.norm_distance (a b : Segment) : Option ℚ :=
  match a.distance b with
  | some d =>
    if a.names.length = 0 then none
    else some ((d : ℚ) / (a.names.length : ℚ))
  | none => none

/-- `__sub__`: delegates to `norm_distance`. -/
def Segment.sub (a b : Segment) : Option ℚ :=
  a.norm_distance b

/-- `hamming_distance(other)`. -/
def Segment.hamming_distance (a b : Segment) : Option Val :=
  match a.numeric?, b.numeric? with
  | some x, some y => some (hammingSum x y)
  | _, _ => none

/-- `norm_hamming_distance(other)`. -/
def Segment.norm_hamming_distance (a b : Segment) : Option ℚ :=
  match a.hamming_distance b with
  | some d =>
    if a.names.length = 0 then none
    else some ((d : ℚ) / (a.names.length : ℚ))
  | none => none

/-! ### Dictionary lemmas -/

theorem PyDict.get?_cons (p : String × Val) (d : PyDict) (k : String) :
    PyDict.get? (p :: d) k = if p.1 = k then some p.2 else PyDict.get? d k := by
  by_cases h : p.1 = k
  · simp [PyDict.get?, List.find?_cons_of_pos, h]
  · simp [PyDict.get?, List.find?_cons_of_neg, h]

theorem PyDict.get?_insert_self (d : PyDict) (k : String) (v : Val) :
    PyDict.get? (PyDict.insert d k v) k = some v := by
  induction d with
  | nil => simp [PyDict.insert, PyDict.get?_cons]
  | cons p d ih =>
    by_cases hp : p.1 = k
    · simp [PyDict.insert, hp, PyDict.get?_cons]
    · simp [PyDict.insert, hp, PyDict.get?_cons, ih]

theorem PyDict.get?_insert_ne (d : PyDict) (k : String) (v : Val) (k2 : String)
    (h : k2 ≠ k) :
    PyDict.get? (PyDict.insert d k v) k2 = PyDict.get? d k2 := by
  have hk2 : ¬ (k = k2) := fun hk => h hk.symm
  induction d with
  | nil => simp [PyDict.insert, PyDict.get?_cons, PyDict.get?, hk2]
  | cons p d ih =>
    by_cases hp : p.1 = k
    · subst hp
      simp [PyDict.insert, PyDict.get?_cons, hk2]
    · simp only [PyDict.insert, hp, if_false]
      rw [PyDict.get?_cons, PyDict.get?_cons, ih]

theorem PyDict.updateAll_nil (d : PyDict) : PyDict.updateAll d [] = d := rfl

theorem PyDict.updateAll_cons (d : PyDict) (p : String × Val) (m : PyDict) :
    PyDict.updateAll d (p :: m) = PyDict.updateAll (PyDict.insert d p.1 p.2) m := rfl

theorem PyDict.get?_updateAll_not_mem (d m : PyDict) (k : String)
    (h : k ∉ m.keys) :
    PyDict.get? (PyDict.updateAll d m) k = PyDict.get? d k := by
  induction m generalizing d with
  | nil => rfl
  | cons p m ih =>
    have hk : k ∉ PyDict.keys m ∧ k ≠ p.1 := by
      constructor
      · intro hm
        exact h (by simp [PyDict.keys] at hm ⊢; exact Or.inr hm)
      · intro he
        exact h (by simp [PyDict.keys, he])
    rw [PyDict.updateAll_cons, ih _ hk.1, PyDict.get?_insert_ne _ _ _ _ hk.2]

theorem PyDict.get?_updateAll_mem (d m : PyDict) (k : String)
    (hnd : m.keys.Nodup) (h : k ∈ m.keys) :
    PyDict.get? (PyDict.updateAll d m) k = PyDict.get? m k := by
  induction m generalizing d with
  | nil => exact absurd h (by simp [PyDict.keys])
  | cons p m ih =>
    have hnd2 : p.1 ∉ PyDict.keys m ∧ (PyDict.keys m).Nodup := by
      simpa [PyDict.keys] using hnd
    by_cases he : k = p.1
    · subst he
      rw [PyDict.updateAll_cons,
        PyDict.get?_updateAll_not_mem _ _ _ hnd2.1,
        PyDict.get?_insert_self, PyDict.get?_cons]
      simp
    · have hne : ¬ (p.1 = k) := fun hh => he hh.symm
      have hm : k ∈ PyDict.keys m := by
        have h1 : k = p.1 ∨ k ∈ PyDict.keys m := by simpa [PyDict.keys] using h
        rcases h1 with h1 | h1
        · exact absurd h1 he
        · exact h1
      rw [PyDict.updateAll_cons, ih _ hnd2.2 hm, PyDict.get?_cons]
      simp [hne]

/-! ### Lookup-projection lemmas -/

theorem lookupAll_length (d : PyDict) (ns : List String) (x : List Val)
    (h : lookupAll d ns = some x) : x.length = ns.length := by
  induction ns generalizing x with
  | nil =>
    simp [lookupAll] at h
    simp [← h]
  | cons k ks ih =>
    simp only [lookupAll] at h
    cases hv : PyDict.get? d k with
    | none => rw [hv] at h; exact absurd h (by simp)
    | some v =>
      rw [hv] at h
      cases hrest : lookupAll d ks with
      | none => rw [hrest] at h; exact absurd h (by simp)
      | some vs =>
        rw [hrest] at h
        simp only [Option.some.injEq] at h
        rw [← h]
        simp [ih vs hrest]

theorem lookupAll_congr (d1 d2 : PyDict) (ns : List String)
    (h : ∀ k ∈ ns, PyDict.get? d1 k = PyDict.get? d2 k) :
    lookupAll d1 ns = lookupAll d2 ns := by
  induction ns with
  | nil => rfl
  | cons k ks ih =>
    simp only [lookupAll]
    rw [h k (by simp), ih (fun k2 hk2 => h k2 (by simp [hk2]))]

theorem reprPairs_congr (d1 d2 : PyDict) (ns : List String)
    (h : ∀ k ∈ ns, PyDict.get? d1 k = PyDict.get? d2 k) :
    reprPairs d1 ns = reprPairs d2 ns := by
  induction ns with
  | nil => rfl
  | cons k ks ih =>
    simp only [reprPairs]
    rw [h k (by simp), ih (fun k2 hk2 => h k2 (by simp [hk2]))]

/-! ### Sum characterizations of the metrics -/

theorem sumAbsDiff_eq_range (x y : List Val) :
    sumAbsDiff x y
      = ∑ i ∈ Finset.range (min x.length y.length), |x.getD i 0 - y.getD i 0| := by
  induction x generalizing y with
  | nil => simp [sumAbsDiff]
  | cons a x ih =>
    cases y with
    | nil => simp [sumAbsDiff]
    | cons b y =>
      have hmin : min (a :: x).length (b :: y).length = min x.length y.length + 1 := by
        simp only [List.length_cons]
        omega
      rw [hmin, Finset.sum_range_succ']
      simp only [List.getD_cons_succ, List.getD_cons_zero]
      rw [← ih]
      simp only [sumAbsDiff, List.zip_cons_cons, List.map_cons, List.sum_cons]
      ring

theorem hammingSum_eq_range (x y : List Val) :
    hammingSum x y
      = ∑ i ∈ Finset.range (min x.length y.length),
          (if x.getD i 0 ≠ y.getD i 0 then (1 : Val) else 0) := by
  induction x generalizing y with
  | nil => simp [hammingSum]
  | cons a x ih =>
    cases y with
    | nil => simp [hammingSum]
    | cons b y =>
      have hmin : min (a :: x).length (b :: y).length = min x.length y.length + 1 := by
        simp only [List.length_cons]
        omega
      rw [hmin, Finset.sum_range_succ']
      simp only [List.getD_cons_succ, List.getD_cons_zero]
      rw [← ih]
      simp only [hammingSum, List.zip_cons_cons, List.map_cons, List.sum_cons]
      ring

/-- Decoding the symbol of a ternary value recovers the value. -/
theorem n2s_s2n_roundtrip (v : Val) (h : v = -1 ∨ v = 0 ∨ v = 1) :
    (n2s v).bind s2n = some v := by
  rcases h with h | h | h <;> subst h <;> rfl

/-! ### Example segments used as concrete instances -/

/-- A three-feature segment matching the spec running example. -/
def seg3a : Segment :=
  { names := ["voice", "nasal", "round"],
    data := [("voice", 1), ("nasal", -1), ("round", 0)] }

/-- Its partner with opposite voicing. -/
def seg3b : Segment :=
  { names := ["voice", "nasal", "round"],
    data := [("voice", -1), ("nasal", -1), ("round", 0)] }

/-- The partner of `seg3a` in the intersection example (nasal flipped). -/
def seg3c : Segment :=
  { names := ["voice", "nasal", "round"],
    data := [("voice", 1), ("nasal", 1), ("round", 0)] }

/-- A two-feature segment, for mismatched-length comparisons. -/
def seg2a : Segment :=
  { names := ["voice", "nasal"], data := [("voice", 1), ("nasal", -1)] }

/-- A one-feature segment. -/
def seg1a : Segment :=
  { names := ["voice"], data := [("voice", -1)] }

/-- A one-feature segment with a neutral value. -/
def seg1b : Segment :=
  { names := ["voice"], data := [("voice", 0)] }

/-! ### Claims -/

/-- Claim C1: the spec says a ftstr token such as `+voice` is decoded through
the symbol table and overwrites the value supplied via `features`, so that
`Segment(names, {voice: 0}, "+voice")` yields `get(voice) == 1`.  The code
cannot do this: the pattern `(+|0|-)(\w+)` passed to `re.finditer` places
the quantifier `+` directly after `(`, and pattern compilation (stdlib `re`
and the `regex` package alike) rejects it with `nothing to repeat` at
position 1, so this construction raises instead of storing anything. -/
theorem C1_ftstr_override_raises :
    Segment.init ["voice"] [("voice", 0)] "+voice"
      = Except.error "nothing to repeat at position 1" := rfl

/-- Claim C2: the spec says construction fills `data` with `features[name]`
or the default `0` for every schema name.  The code never completes any
construction: `__init__` unconditionally calls `re.finditer` on the
malformed pattern `(+|0|-)(\w+)` — even when `ftstr` is the default empty
string — and pattern compilation raises `nothing to repeat` first, for
every argument triple whatsoever. -/
theorem C2_construction_always_raises (names : List String) (features : PyDict)
    (ftstr : String) :
    Segment.init names features ftstr
      = Except.error "nothing to repeat at position 1" := rfl

/-- Claim C3: the spec says `match(other)` returns true iff every pair of
`other` agrees with the stored value.  The code's body iterates
`features.items()`, but no binding named `features` exists in any scope (the
parameter is `other`), so every call — here on a segment that stores exactly
the queried pair — raises a NameError instead of returning `True`; the
operator form delegates and raises identically. -/
theorem C3_match_raises_nameerror :
    (({ names := ["voice"], data := [("voice", 1)] } : Segment).matchOp
        [("voice", 1)] = Except.error nameErrorFeatures) ∧
    (({ names := ["voice"], data := [("voice", 1)] } : Segment).ge
        [("voice", 1)] = Except.error nameErrorFeatures) :=
  ⟨rfl, rfl⟩

/-- Claim C4: setting a key outside `names` fails with the unknown-feature
KeyError (and the object is returned unchanged), while setting a key inside
`names` succeeds for every value and the new value is immediately visible
through `get`. -/
theorem C4_setitem_validation (s : Segment) (k : String) (v : Val) :
    (k ∉ s.names →
      s.setitem k v = (Except.error "Unknown feature name.", s)) ∧
    (k ∈ s.names →
      (s.setitem k v).1 = Except.ok () ∧
      ((s.setitem k v).2).getitem k = some v) := by
  constructor
  · intro h
    simp [Segment.setitem, h]
  · intro h
    constructor
    · simp [Segment.setitem, h]
    · simp [Segment.setitem, h, Segment.getitem, PyDict.get?_insert_self]

/-- Witness for C4 at concrete inputs: `nasal` is rejected on a
voice-only schema, `voice` is accepted and readable. -/
theorem C4_setitem_validation_witness :
    (seg1b.setitem "nasal" 5 = (Except.error "Unknown feature name.", seg1b)) ∧
    ((seg1b.setitem "voice" 1).1 = Except.ok ()) ∧
    (((seg1b.setitem "voice" 1).2).getitem "voice" = some 1) :=
  ⟨(C4_setitem_validation seg1b "nasal" 5).1 (by decide),
   ((C4_setitem_validation seg1b "voice" 1).2 (by decide)).1,
   ((C4_setitem_validation seg1b "voice" 1).2 (by decide)).2⟩

/-- Claim C10: a failing item-assignment (key outside the schema) raises
before any mutation: the outcome is the KeyError and the post-state of the
object is exactly the pre-state. -/
theorem C10_setitem_atomic_on_failure (s : Segment) (k : String) (v : Val)
    (h : k ∉ s.names) :
    (s.setitem k v).1 = Except.error "Unknown feature name." ∧
    (s.setitem k v).2 = s := by
  simp [Segment.setitem, h]

/-- Witness for C10: assigning to `round` on a voice-only schema errors and
leaves the segment untouched. -/
theorem C10_setitem_atomic_on_failure_witness :
    (seg1a.setitem "round" 7).1 = Except.error "Unknown feature name." ∧
    (seg1a.setitem "round" 7).2 = seg1a :=
  C10_setitem_atomic_on_failure seg1a "round" 7 (by decide)

/-- The dict the spec expects from the intersection example. -/
def interExpected : PyDict := [("voice", 1), ("round", 0)]

/-- Claim C5: `intersection` (and the `&` operator) keeps exactly the
`(name, value)` pairs stored identically in both `data` mappings — a pair
whose name is shared but whose values differ is dropped entirely — and on
the spec example the differing `nasal` pair disappears while `voice` and
`round` survive. -/
theorem C5_intersection_identical_pairs :
    (∀ (a b : Segment) (k : String) (v : Val),
      a.intersection b k = some v ↔
        (PyDict.get? a.data k = some v ∧ PyDict.get? b.data k = some v)) ∧
    (∀ (a b : Segment) (k : String), a.andOp b k = a.intersection b k) ∧
    (∀ k : String, seg3a.intersection seg3c k = interExpected.get? k) := by
  refine ⟨?_, fun a b k => rfl, ?_⟩
  · intro a b k v
    cases ha : PyDict.get? a.data k with
    | none =>
      have hred : a.intersection b k = none := by
        unfold Segment.intersection
        rw [ha]
      rw [hred]
      simp
    | some w =>
      have hred : a.intersection b k
          = if PyDict.get? b.data k = some w then some w else none := by
        unfold Segment.intersection
        rw [ha]
      rw [hred]
      by_cases hb : PyDict.get? b.data k = some w
      · rw [if_pos hb]
        constructor
        · intro hv
          exact ⟨hv, hv ▸ hb⟩
        · intro hv
          exact hv.1
      · rw [if_neg hb]
        constructor
        · intro hv
          exact absurd hv (by simp)
        · intro hv
          have hw : w = v := Option.some.inj hv.1
          have hbv : PyDict.get? b.data k = some w := by
            rw [hw]
            exact hv.2
          exact absurd hbv hb
  · intro k
    by_cases h1 : "voice" = k
    · subst h1; decide
    · by_cases h2 : "nasal" = k
      · subst h2; decide
      · by_cases h3 : "round" = k
        · subst h3; decide
        · simp [Segment.intersection, seg3a, seg3c, interExpected,
            PyDict.get?_cons, h1, h2, h3, PyDict.get?]

/-- Claim C6: for two conformant segments over the same schema, `distance`
is the integer sum over the schema positions of the absolute differences of
the numeric values, `norm_distance` is exactly that distance divided by the
number of features, and the subtraction operator is `norm_distance`. -/
theorem C6_norm_distance_exact (a b : Segment) (x y : List Val)
    (hn : a.names = b.names)
    (hx : a.numeric? = some x) (hy : b.numeric? = some y)
    (hnil : a.names ≠ []) :
    x.length = a.names.length ∧ y.length = a.names.length ∧
    a.distance b
      = some (∑ i ∈ Finset.range a.names.length, |x.getD i 0 - y.getD i 0|) ∧
    a.norm_distance b
      = some (((∑ i ∈ Finset.range a.names.length, |x.getD i 0 - y.getD i 0| : Val) : ℚ)
          / (a.names.length : ℚ)) ∧
    a.sub b = a.norm_distance b := by
  have hxl : x.length = a.names.length := lookupAll_length a.data a.names x hx
  have hyl : y.length = a.names.length := by
    rw [hn]
    exact lookupAll_length b.data b.names y hy
  have hdist : a.distance b
      = some (∑ i ∈ Finset.range a.names.length, |x.getD i 0 - y.getD i 0|) := by
    unfold Segment.distance
    simp only [hx, hy]
    rw [sumAbsDiff_eq_range, hxl, hyl, min_self]
  refine ⟨hxl, hyl, hdist, ?_, rfl⟩
  unfold Segment.norm_distance
  simp only [hdist]
  have hlen : ¬ (a.names.length = 0) := by
    intro h0
    exact hnil (List.length_eq_zero.mp h0)
  rw [if_neg hlen]

/-- Witness for C6: the spec running example, `norm_distance` is exactly
two thirds. -/
theorem C6_norm_distance_exact_witness :
    seg3a.norm_distance seg3b = some ((2 : ℚ) / 3) := by
  have h := C6_norm_distance_exact seg3a seg3b [1, -1, 0] [-1, -1, 0]
    rfl rfl rfl (by decide)
  rw [h.2.2.2.1]
  norm_num [Finset.sum_range_succ, seg3a]

/-- Claim C7: on segments whose schemas have different lengths, `distance`
and `hamming_distance` do not raise: each sums only over the first
`min` positions, the trailing entries of the longer numeric vector being
ignored. -/
theorem C7_distance_truncates (a b : Segment) (x y : List Val)
    (hx : a.numeric? = some x) (hy : b.numeric? = some y)
    (hne : a.names.length ≠ b.names.length) :
    x.length = a.names.length ∧ y.length = b.names.length ∧
    a.distance b
      = some (∑ i ∈ Finset.range (min a.names.length b.names.length),
          |x.getD i 0 - y.getD i 0|) ∧
    a.hamming_distance b
      = some (∑ i ∈ Finset.range (min a.names.length b.names.length),
          if x.getD i 0 ≠ y.getD i 0 then (1 : Val) else 0) ∧
    (a.distance b).isSome ∧ (a.hamming_distance b).isSome := by
  have hxl : x.length = a.names.length := lookupAll_length a.data a.names x hx
  have hyl : y.length = b.names.length := lookupAll_length b.data b.names y hy
  have hdist : a.distance b
      = some (∑ i ∈ Finset.range (min a.names.length b.names.length),
          |x.getD i 0 - y.getD i 0|) := by
    unfold Segment.distance
    simp only [hx, hy]
    rw [sumAbsDiff_eq_range, hxl, hyl]
  have hham : a.hamming_distance b
      = some (∑ i ∈ Finset.range (min a.names.length b.names.length),
          if x.getD i 0 ≠ y.getD i 0 then (1 : Val) else 0) := by
    unfold Segment.hamming_distance
    simp only [hx, hy]
    rw [hammingSum_eq_range, hxl, hyl]
  exact ⟨hxl, hyl, hdist, hham, by rw [hdist]; rfl, by rw [hham]; rfl⟩

/-- Witness for C7: a two-feature segment against a one-feature segment —
no error, distance 2 and hamming distance 1, computed on the first position
only. -/
theorem C7_distance_truncates_witness :
    seg2a.distance seg1a = some 2 ∧ seg2a.hamming_distance seg1a = some 1 := by
  have h := C7_distance_truncates seg2a seg1a [1, -1] [-1] rfl rfl (by decide)
  constructor
  · rw [h.2.2.1]
    norm_num [Finset.sum_range_succ, seg2a, seg1a]
  · rw [h.2.2.2.1]
    norm_num [Finset.sum_range_succ, seg2a, seg1a]

/-- Claim C8: when every stored schema value is ternary, decoding each
element of `string()` back through the symbol-to-number table reproduces
`numeric()` element for element, in schema order. -/
theorem C8_string_roundtrip (s : Segment) (x : List Val)
    (hx : s.numeric? = some x)
    (hv : ∀ v ∈ x, v = -1 ∨ v = 0 ∨ v = 1) :
    s.string = some (x.map n2s) ∧
    (x.map n2s).map (fun o => o.bind s2n) = x.map some := by
  constructor
  · unfold Segment.string
    rw [hx]
    rfl
  · rw [List.map_map]
    refine List.map_congr_left ?_
    intro v hvx
    exact n2s_s2n_roundtrip v (hv v hvx)

/-- Witness for C8 on the running example segment. -/
theorem C8_string_roundtrip_witness :
    seg3a.string = some (([1, -1, 0] : List Val).map n2s) ∧
    (([1, -1, 0] : List Val).map n2s).map (fun o => o.bind s2n)
      = ([1, -1, 0] : List Val).map some :=
  C8_string_roundtrip seg3a [1, -1, 0] rfl (by decide)

/-- Claim C9: `update` with a mapping whose keys lie outside the schema
stores those keys verbatim (no validation), yet `numeric`, `string`,
iteration, `items`, `repr` and all four distance metrics are unchanged —
each projects strictly through `names`. -/
theorem C9_update_unvalidated_invisible (s : Segment) (m : PyDict)
    (hnd : m.keys.Nodup) (hout : ∀ k ∈ m.keys, k ∉ s.names) :
    (∀ k ∈ m.keys, (s.update m).getitem k = m.get? k) ∧
    (s.update m).numeric? = s.numeric? ∧
    (s.update m).string = s.string ∧
    (s.update m).iter = s.iter ∧
    (s.update m).items = s.items ∧
    (s.update m).reprStr = s.reprStr ∧
    (∀ b : Segment,
      (s.update m).distance b = s.distance b ∧
      b.distance (s.update m) = b.distance s ∧
      (s.update m).norm_distance b = s.norm_distance b ∧
      b.norm_distance (s.update m) = b.norm_distance s ∧
      (s.update m).hamming_distance b = s.hamming_distance b ∧
      b.hamming_distance (s.update m) = b.hamming_distance s ∧
      (s.update m).norm_hamming_distance b = s.norm_hamming_distance b ∧
      b.norm_hamming_distance (s.update m) = b.norm_hamming_distance s) := by
  have hagree : ∀ k ∈ s.names,
      PyDict.get? (s.update m).data k = PyDict.get? s.data k := by
    intro k hk
    have hkm : k ∉ m.keys := fun hkm => hout k hkm hk
    exact PyDict.get?_updateAll_not_mem s.data m k hkm
  have hnames : (s.update m).names = s.names := rfl
  have hnum : (s.update m).numeric? = s.numeric? := by
    unfold Segment.numeric?
    rw [hnames]
    exact lookupAll_congr _ _ _ hagree
  have hlook : lookupAll (s.update m).data s.names = lookupAll s.data s.names :=
    lookupAll_congr _ _ _ hagree
  refine ⟨?_, hnum, ?_, rfl, ?_, ?_, ?_⟩
  · intro k hk
    unfold Segment.getitem
    exact PyDict.get?_updateAll_mem s.data m k hnd hk
  · unfold Segment.string
    rw [hnum]
  · unfold Segment.items
    rw [hnames, hlook]
  · unfold Segment.reprStr
    rw [hnames, reprPairs_congr _ _ _ hagree]
  · intro b
    have hdl : (s.update m).distance b = s.distance b := by
      unfold Segment.distance
      rw [hnum]
    have hdr : b.distance (s.update m) = b.distance s := by
      unfold Segment.distance
      rw [hnum]
    have hhl : (s.update m).hamming_distance b = s.hamming_distance b := by
      unfold Segment.hamming_distance
      rw [hnum]
    have hhr : b.hamming_distance (s.update m) = b.hamming_distance s := by
      unfold Segment.hamming_distance
      rw [hnum]
    refine ⟨hdl, hdr, ?_, ?_, hhl, hhr, ?_, ?_⟩
    · unfold Segment.norm_distance
      rw [hdl, hnames]
    · unfold Segment.norm_distance
      rw [hdr]
    · unfold Segment.norm_hamming_distance
      rw [hhl, hnames]
    · unfold Segment.norm_hamming_distance
      rw [hhr]

/-- The out-of-schema mapping injected in the C9 witness. -/
def extraDict : PyDict := [("extra", 5)]

/-- Witness for C9: injecting `extra` into a voice-only segment stores it
verbatim while `numeric`, `repr` and `distance` are untouched. -/
theorem C9_update_unvalidated_invisible_witness :
    (seg1b.update extraDict).getitem "extra" = some 5 ∧
    (seg1b.update extraDict).numeric? = seg1b.numeric? ∧
    (seg1b.update extraDict).reprStr = seg1b.reprStr ∧
    (seg1b.update extraDict).distance seg1a = seg1b.distance seg1a := by
  have h := C9_update_unvalidated_invisible seg1b extraDict (by decide) (by decide)
  exact ⟨h.1 "extra" (by decide), h.2.1, h.2.2.2.2.2.1, (h.2.2.2.2.2.2 seg1a).1⟩
